import Mathlib

/-!
Verification of the SFLib heap allocator (src/heap.c, with the fatal error
sink from src/errors.c), shallowly embedded in Lean 4.

The allocator coordinates two layers: a relocatable flex block (the arena,
whose tracked size lives in the C global heap_block_size) and an OS_Heap
descriptor embedded at its start.  External collaborators (flex_alloc,
flex_extend, xosheap_alloc, xosheap_realloc, osheap_free,
osheap_resize_no_fail, xosheap_initialise) are modelled as oracles: their
outcomes are inputs to each operation, and every call the allocator makes
to them is recorded in an event trace so that the arguments passed can be
stated in theorems.

Memory is byte addressed (Mem : Nat -> Nat); the 4-byte block header that
heap.c writes with *(int *)block = size - sizeof(int) is modelled by a
little-endian 4-byte store (writeWord) and the reads in heap_size by the
matching 4-byte load (readWord), on the 32-bit target where
sizeof(int) = sizeof(size_t) = 4.
-/

/-- Byte-addressed memory: each cell holds one byte of the process image. -/
def Mem : Type := Nat → Nat

/-- Store one byte (the low 8 bits of v) at address a. -/
def writeByte (m : Mem) (a v : Nat) : Mem :=
  fun x => if x = a then v % 256 else m x

/-- Store a 32-bit little-endian word at address a, as the C assignment
through an int pointer does on the 32-bit target. -/
def writeWord (m : Mem) (a v : Nat) : Mem :=
  writeByte (writeByte (writeByte (writeByte m a v) (a + 1) (v / 256)) (a + 2) (v / 65536)) (a + 3) (v / 16777216)

/-- Load a 32-bit little-endian word from address a. -/
def readWord (m : Mem) (a : Nat) : Nat :=
  m a % 256 + 256 * (m (a + 1) % 256) + 65536 * (m (a + 2) % 256) + 16777216 * (m (a + 3) % 256)

theorem writeByte_same (m : Mem) (a v : Nat) : writeByte m a v a = v % 256 := by
  simp [writeByte]

theorem writeByte_other (m : Mem) (a v x : Nat) (h : x ≠ a) : writeByte m a v x = m x := by
  simp [writeByte, h]

theorem readWord_writeWord (m : Mem) (a v : Nat) :
    readWord (writeWord m a v) a = v % 4294967296 := by
  unfold readWord writeWord
  rw [writeByte_other _ _ _ _ (by omega), writeByte_other _ _ _ _ (by omega),
    writeByte_other _ _ _ _ (by omega), writeByte_same,
    writeByte_other _ _ _ _ (by omega), writeByte_other _ _ _ _ (by omega),
    writeByte_same, writeByte_other _ _ _ _ (by omega), writeByte_same,
    writeByte_same]
  omega

theorem writeWord_outside (m : Mem) (a v x : Nat) (h : x < a ∨ a + 3 < x) :
    writeWord m a v x = m x := by
  unfold writeWord writeByte
  have h3 : x ≠ a + 3 := by omega
  have h2 : x ≠ a + 2 := by omega
  have h1 : x ≠ a + 1 := by omega
  have h0 : x ≠ a := by omega
  simp [h0, h1, h2, h3]

/-- Reinterpret a 32-bit word as the signed C int it denotes. -/
def asInt32 (w : Nat) : Int :=
  if w < 2147483648 then (w : Int) else (w : Int) - 4294967296

/-- The size of standard allocations from flex (HEAP_GRANULARITY). -/
def HEAP_GRANULARITY : Int := 1024

/-- The memory required by OS_Heap to manage a heap block (HEAP_BLOCK_OHEAD). -/
def HEAP_BLOCK_OHEAD : Int := 16

/-- An OS error block, abstracted to its identity; a C os_error pointer that
is not NULL.  NULL is modelled by Option.none where it can occur. -/
abbrev OsError := Nat

/-- The allocator's mutable state: the process memory image and the C global
heap_block_size (the granularity tracker of the spec).  The flex anchor
itself is kept abstract: block addresses come from the oracles. -/
structure HeapState where
  mem : Mem
  heap_block_size : Int

/-- One call made to an external collaborator, with the arguments the
allocator passed and the outcome the oracle supplied. -/
inductive Event where
  /-- An xosheap_alloc or xosheap_realloc reservation attempt against the
  embedded OS_Heap, with the size or size-change requested. -/
  | reserve (req : Int) (res : Except OsError Nat)
  /-- A flex_extend call: the new arena size requested and whether flex
  agreed. -/
  | flexExtendCall (newSize : Int) (ok : Bool)
  /-- An osheap_resize call growing the embedded descriptor by change. -/
  | descResize (change : Int)
  /-- An osheap_free call returning the block at ptr to the OS_Heap. -/
  | osFree (ptr : Nat)
  /-- An osheap_resize_no_fail call with argument 0x80000000, and the size
  change it reported. -/
  | trim (res : Int)

/-- Outcomes supplied by the external collaborators for one allocate or
resize call: the first reservation attempt, the at-most-one retried
reservation attempt, and whether flex_extend succeeds.  A successful
reservation carries the byte address of the raw block. -/
structure Oracle where
  res1 : Except OsError Nat
  res2 : Except OsError Nat
  extendOk : Bool

/-- A call's result: either control returns with a payload pointer or NULL
and a new state, or error_report_program was given a non-NULL error and the
process terminated (the call never returns). -/
inductive HeapOutcome where
  | ret (p : Option Nat) (st : HeapState)
  | fatal (e : OsError)

/-- heap.c lines 107-112: if (block != NULL) { *(int *)block = size -
sizeof(int); block = (int *)block + 1; } return block;  The header value is
stored mod 2^32 (size - sizeof(int) is computed in size_t); adding
4294967292 is the two's-complement subtraction of 4. -/
def heap_finish (st : HeapState) (block : Nat) (size : Nat) : HeapOutcome :=
  if block = 0 then
    .ret none st
  else
    .ret (some (block + 4)) { st with mem := writeWord st.mem block (size + 4294967292) }

/-- heap.c heap_alloc (lines 86-113).  size0 is the caller's size_t request;
size := size0 + sizeof(int) computed in size_t.  On first-reservation
failure the arena is asked to grow to heap_block_size + size +
HEAP_BLOCK_OHEAD; if flex agrees, the descriptor is grown by size +
HEAP_BLOCK_OHEAD, the tracker is bumped by the same amount and the
reservation is retried once; a second failure reaches
error_report_program with a non-NULL error, which exits. -/
def heap_alloc (st : HeapState) (size0 : Nat) (o : Oracle) : HeapOutcome × List Event :=
  let size := (size0 + 4) % 4294967296
  match o.res1 with
  | .ok block => (heap_finish st block size, [.reserve (size : Int) (.ok block)])
  | .error e1 =>
    let newSize : Int := st.heap_block_size + (size : Int) + HEAP_BLOCK_OHEAD
    if o.extendOk then
      let st1 : HeapState := { st with heap_block_size := st.heap_block_size + ((size : Int) + HEAP_BLOCK_OHEAD) }
      match o.res2 with
      | .ok block =>
        (heap_finish st1 block size,
         [.reserve (size : Int) (.error e1), .flexExtendCall newSize true,
          .descResize ((size : Int) + HEAP_BLOCK_OHEAD), .reserve (size : Int) (.ok block)])
      | .error e2 =>
        (.fatal e2,
         [.reserve (size : Int) (.error e1), .flexExtendCall newSize true,
          .descResize ((size : Int) + HEAP_BLOCK_OHEAD), .reserve (size : Int) (.error e2)])
    else
      (.ret none st, [.reserve (size : Int) (.error e1), .flexExtendCall newSize false])

/-- heap.c heap_size (lines 182-185): return *((size_t *)ptr - 1). -/
def heap_size (st : HeapState) (p : Nat) : Nat :=
  readWord st.mem (p - 4)

/-- heap.c line 152: change = new_size - *(int *)ptr, with new_size already
incremented by sizeof(int); the stored header (the block's payload size) is
read back as a signed int. -/
def heap_extend_change (st : HeapState) (p : Nat) (new_size0 : Nat) : Int :=
  (((new_size0 + 4) % 4294967296 : Nat) : Int) - asInt32 (readWord st.mem (p - 4))

/-- heap.c heap_extend (lines 144-174), the resize path: the same grow-once
retry protocol as heap_alloc, with xosheap_realloc asked for the size
change heap_extend_change. -/
def heap_extend (st : HeapState) (p : Nat) (new_size0 : Nat) (o : Oracle) : HeapOutcome × List Event :=
  let new_size := (new_size0 + 4) % 4294967296
  let change := heap_extend_change st p new_size0
  match o.res1 with
  | .ok block => (heap_finish st block new_size, [.reserve change (.ok block)])
  | .error e1 =>
    let newSize : Int := st.heap_block_size + (new_size : Int) + HEAP_BLOCK_OHEAD
    if o.extendOk then
      let st1 : HeapState := { st with heap_block_size := st.heap_block_size + ((new_size : Int) + HEAP_BLOCK_OHEAD) }
      match o.res2 with
      | .ok block =>
        (heap_finish st1 block new_size,
         [.reserve change (.error e1), .flexExtendCall newSize true,
          .descResize ((new_size : Int) + HEAP_BLOCK_OHEAD), .reserve change (.ok block)])
      | .error e2 =>
        (.fatal e2,
         [.reserve change (.error e1), .flexExtendCall newSize true,
          .descResize ((new_size : Int) + HEAP_BLOCK_OHEAD), .reserve change (.error e2)])
    else
      (.ret none st, [.reserve change (.error e1), .flexExtendCall newSize false])

/-- Outcomes supplied by the collaborators for one heap_free call: the size
change osheap_resize_no_fail reports (negative when trailing free space was
given up), and whether the shrinking flex_extend succeeds (its result is
ignored by heap_free). -/
structure FreeOracle where
  trimRes : Int
  flexOk : Bool

/-- heap.c heap_free (lines 121-135): step back to the header, osheap_free
the block, ask osheap_resize_no_fail(0x80000000) to give up trailing free
space, and if it reports a negative change, lower the tracker by it and
flex_extend the arena down to the new tracker value. -/
def heap_free (st : HeapState) (p : Nat) (o : FreeOracle) : HeapState × List Event :=
  let ptr := p - 4
  if o.trimRes < 0 then
    ({ st with heap_block_size := st.heap_block_size + o.trimRes },
     [.osFree ptr, .trim o.trimRes, .flexExtendCall (st.heap_block_size + o.trimRes) o.flexOk])
  else
    (st, [.osFree ptr, .trim o.trimRes])

/-- The C library strncpy(dst, src, n), as heap_strdup uses it: bytes of src
are copied to dst up to and including the first NUL; positions after the
first NUL (within the n copied bytes) are filled with 0.  Overlapping
regions are undefined behaviour in C; this model reads src from the memory
as it was before the copy, which agrees with C exactly on disjoint
regions. -/
def strncpy (m : Mem) (dst src n : Nat) : Mem :=
  fun a =>
    if dst ≤ a ∧ a < dst + n then
      if (List.range (a - dst)).all (fun j => m (src + j) != 0) then
        m (src + (a - dst))
      else 0
    else m a

/-- The bytes at addresses a .. a+len form a NUL-terminated C string of
length len: the first len bytes are non-zero and byte len is zero.  This is
the domain on which C's strlen(a) is defined and returns len. -/
def isCString (m : Mem) (a len : Nat) : Bool :=
  m (a + len) == 0 && (List.range len).all (fun i => m (a + i) != 0)

/-- heap.c heap_strdup (lines 193-202): size = strlen(string) + 1; new =
heap_alloc(size); if (new != NULL) strncpy(new, string, size); return new.
The parameter len stands for strlen(string); theorems pin it down with an
isCString hypothesis, since strlen is undefined on unterminated input. -/
def heap_strdup (st : HeapState) (string : Nat) (len : Nat) (o : Oracle) : HeapOutcome × List Event :=
  let size := len + 1
  match heap_alloc st size o with
  | (.ret (some p) st1, tr) => (.ret (some p) { st1 with mem := strncpy st1.mem p string size }, tr)
  | r => r

/-- errors.c error_report_program (lines 384-391): if (error == NULL)
return; otherwise show the program-category report box and exit(1).  The
result encodes control flow: some () means the call returned to its caller
(no report raised); none means a fatal report was raised and the process
terminated. -/
def error_report_program (e : Option OsError) : Option Unit :=
  match e with
  | none => some ()
  | some _ => none

/-- Outcomes supplied by the collaborators for heap_initialise: whether
flex_alloc obtained the initial block (its result is discarded by the code,
heap.c line 71), and the error returned by xosheap_initialise (none for
NULL, i.e. success). -/
structure InitOracle where
  flexAllocOk : Bool
  initError : Option OsError

/-- heap.c heap_initialise (lines 67-78): flex_alloc the initial block
(result ignored), xosheap_initialise the descriptor, then - because of the
stray semicolon in `if (error != NULL);` - call error_report_program
unconditionally on the resulting error pointer, and return TRUE.  The
result is some flag if the call returns, none if error_report_program
terminated the process. -/
def heap_initialise (o : InitOracle) : Option Bool :=
  match error_report_program o.initError with
  | some _ => some true
  | none => none

/-- How many reservation attempts (xosheap_alloc / xosheap_realloc calls)
a trace records. -/
def reserveCount (evs : List Event) : Nat :=
  (evs.filter fun ev => match ev with | .reserve _ _ => true | _ => false).length

theorem heap_finish_some (st : HeapState) (block size p : Nat) (st' : HeapState)
    (h : heap_finish st block size = .ret (some p) st') :
    p = block + 4 ∧ st'.mem = writeWord st.mem block (size + 4294967292) ∧
    st'.heap_block_size = st.heap_block_size := by
  unfold heap_finish at h
  split at h
  · simp at h
  · simp only [HeapOutcome.ret.injEq, Option.some.injEq] at h
    obtain ⟨hp, hst⟩ := h
    subst hst
    exact ⟨hp.symm, rfl, rfl⟩

/-- C1: for every size s, if heap_alloc(s) succeeds and returns pointer p,
the value s is stored in the 4-byte header immediately preceding p, and
heap_size(p) = s immediately afterwards. -/
theorem heap_alloc_sets_header (st : HeapState) (s : Nat) (o : Oracle) (p : Nat)
    (st' : HeapState) (tr : List Event)
    (hs : s + 4 < 4294967296)
    (h : heap_alloc st s o = (.ret (some p) st', tr)) :
    readWord st'.mem (p - 4) = s ∧ heap_size st' p = s := by
  have hsz : (s + 4) % 4294967296 = s + 4 := Nat.mod_eq_of_lt hs
  rcases o with ⟨r1, r2, ex⟩
  have key : readWord st'.mem (p - 4) = s := by
    cases r1 with
    | ok b1 =>
      simp only [heap_alloc] at h
      injection h with hout htr
      obtain ⟨hp, hmem, -⟩ := heap_finish_some _ _ _ _ _ hout
      subst hp
      rw [Nat.add_sub_cancel, hmem, readWord_writeWord, hsz]
      omega
    | error e1 =>
      cases ex with
      | false => simp [heap_alloc] at h
      | true =>
        cases r2 with
        | ok b2 =>
          simp only [heap_alloc] at h
          injection h with hout htr
          obtain ⟨hp, hmem, -⟩ := heap_finish_some _ _ _ _ _ hout
          subst hp
          rw [Nat.add_sub_cancel, hmem, readWord_writeWord, hsz]
          omega
        | error e2 => simp [heap_alloc] at h
  exact ⟨key, key⟩

def allocSt0 : HeapState := { mem := fun _ => 0, heap_block_size := HEAP_GRANULARITY }

theorem heap_alloc_sets_header_witness :
    readWord (writeWord allocSt0.mem 96 ((12 + 4) % 4294967296 + 4294967292)) (100 - 4) = 12 ∧
    heap_size { allocSt0 with
        mem := writeWord allocSt0.mem 96 ((12 + 4) % 4294967296 + 4294967292) } 100 = 12 :=
  heap_alloc_sets_header allocSt0 12 { res1 := .ok 96, res2 := .ok 96, extendOk := true }
    100
    { allocSt0 with mem := writeWord allocSt0.mem 96 ((12 + 4) % 4294967296 + 4294967292) }
    [.reserve (((12 + 4) % 4294967296 : Nat) : Int) (.ok 96)]
    (by norm_num) rfl

/-- C10: when the first reservation fails and flex refuses to extend the
arena, heap_alloc returns NULL with the state - memory image and
granularity tracker alike - exactly as it was: no partial update survives
the recoverable failure. -/
theorem heap_alloc_recoverable_state (st : HeapState) (s : Nat) (o : Oracle) (e1 : OsError)
    (h1 : o.res1 = .error e1) (hx : o.extendOk = false) :
    (heap_alloc st s o).1 = .ret none st := by
  rcases o with ⟨r1, r2, ex⟩
  subst h1
  subst hx
  rfl

theorem heap_alloc_recoverable_state_witness :
    (heap_alloc allocSt0 5 { res1 := .error 7, res2 := .ok 0, extendOk := false }).1 =
      .ret none allocSt0 :=
  heap_alloc_recoverable_state allocSt0 5 _ 7 rfl rfl

/-- C3: when the first reservation fails, heap_alloc asks flex for a new
arena size of granularity tracker + total + HEAP_BLOCK_OHEAD, where total
is the requested size plus the 4-byte header; if flex refuses, heap_alloc
returns NULL (a recoverable out-of-memory condition). -/
theorem heap_alloc_growth_request (st : HeapState) (s : Nat) (o : Oracle) (e1 : OsError)
    (hs : s + 4 < 4294967296) (h1 : o.res1 = .error e1) (hx : o.extendOk = false) :
    heap_alloc st s o =
      (.ret none st,
       [.reserve ((s : Int) + 4) (.error e1),
        .flexExtendCall (st.heap_block_size + ((s : Int) + 4) + HEAP_BLOCK_OHEAD) false]) := by
  have hsz : (s + 4) % 4294967296 = s + 4 := Nat.mod_eq_of_lt hs
  rcases o with ⟨r1, r2, ex⟩
  subst h1
  subst hx
  simp [heap_alloc, hsz]

theorem heap_alloc_growth_request_witness :
    heap_alloc allocSt0 100 { res1 := .error 7, res2 := .ok 0, extendOk := false } =
      (.ret none allocSt0,
       [.reserve ((100 : Int) + 4) (.error 7),
        .flexExtendCall (allocSt0.heap_block_size + ((100 : Int) + 4) + HEAP_BLOCK_OHEAD) false]) :=
  heap_alloc_growth_request allocSt0 100 _ 7 (by norm_num) rfl rfl

/-- C2: when the first reservation fails, flex extends the arena, and the
retried reservation fails again, both heap_alloc and heap_extend hand the
non-NULL error to error_report_program, which never returns (encoded as
none); exactly two reservation attempts are made, so the retry happens
exactly once. -/
theorem heap_grow_retry_fatal (st : HeapState) (s p n : Nat) (o : Oracle) (e1 e2 : OsError)
    (h1 : o.res1 = .error e1) (h2 : o.res2 = .error e2) (hx : o.extendOk = true) :
    error_report_program (some e2) = none ∧
    ((heap_alloc st s o).1 = .fatal e2 ∧ reserveCount (heap_alloc st s o).2 = 2) ∧
    ((heap_extend st p n o).1 = .fatal e2 ∧ reserveCount (heap_extend st p n o).2 = 2) := by
  rcases o with ⟨r1, r2, ex⟩
  subst h1
  subst h2
  subst hx
  exact ⟨rfl, ⟨rfl, rfl⟩, ⟨rfl, rfl⟩⟩

theorem heap_grow_retry_fatal_witness :
    error_report_program (some 9) = none ∧
    ((heap_alloc allocSt0 40 { res1 := .error 8, res2 := .error 9, extendOk := true }).1 = .fatal 9 ∧
     reserveCount (heap_alloc allocSt0 40 { res1 := .error 8, res2 := .error 9, extendOk := true }).2 = 2) ∧
    ((heap_extend allocSt0 100 40 { res1 := .error 8, res2 := .error 9, extendOk := true }).1 = .fatal 9 ∧
     reserveCount (heap_extend allocSt0 100 40 { res1 := .error 8, res2 := .error 9, extendOk := true }).2 = 2) :=
  heap_grow_retry_fatal allocSt0 40 100 40 _ 8 9 rfl rfl rfl

theorem heap_alloc_ret_some (st : HeapState) (s : Nat) (o : Oracle) (p : Nat)
    (st' : HeapState) (tr : List Event)
    (h : heap_alloc st s o = (.ret (some p) st', tr)) :
    4 ≤ p ∧ st'.mem = writeWord st.mem (p - 4) ((s + 4) % 4294967296 + 4294967292) := by
  rcases o with ⟨r1, r2, ex⟩
  cases r1 with
  | ok b1 =>
    simp only [heap_alloc] at h
    injection h with hout htr
    obtain ⟨hp, hmem, -⟩ := heap_finish_some _ _ _ _ _ hout
    subst hp
    rw [Nat.add_sub_cancel]
    exact ⟨by omega, hmem⟩
  | error e1 =>
    cases ex with
    | false => simp [heap_alloc] at h
    | true =>
      cases r2 with
      | ok b2 =>
        simp only [heap_alloc] at h
        injection h with hout htr
        obtain ⟨hp, hmem, -⟩ := heap_finish_some _ _ _ _ _ hout
        subst hp
        rw [Nat.add_sub_cancel]
        exact ⟨by omega, hmem⟩
      | error e2 => simp [heap_alloc] at h

theorem heap_extend_ret_some (st : HeapState) (pin n : Nat) (o : Oracle) (q : Nat)
    (st' : HeapState) (tr : List Event)
    (h : heap_extend st pin n o = (.ret (some q) st', tr)) :
    4 ≤ q ∧ st'.mem = writeWord st.mem (q - 4) ((n + 4) % 4294967296 + 4294967292) := by
  rcases o with ⟨r1, r2, ex⟩
  cases r1 with
  | ok b1 =>
    simp only [heap_extend] at h
    injection h with hout htr
    obtain ⟨hp, hmem, -⟩ := heap_finish_some _ _ _ _ _ hout
    subst hp
    rw [Nat.add_sub_cancel]
    exact ⟨by omega, hmem⟩
  | error e1 =>
    cases ex with
    | false => simp [heap_extend] at h
    | true =>
      cases r2 with
      | ok b2 =>
        simp only [heap_extend] at h
        injection h with hout htr
        obtain ⟨hp, hmem, -⟩ := heap_finish_some _ _ _ _ _ hout
        subst hp
        rw [Nat.add_sub_cancel]
        exact ⟨by omega, hmem⟩
      | error e2 => simp [heap_extend] at h

/-- C5: the header invariant.  Whenever heap_alloc or heap_extend returns
successfully, the header word immediately before the returned pointer holds
the size just requested, so heap_size reads back that request. -/
theorem heap_header_matches_request (st st2 : HeapState) (s pin n : Nat) (o o2 : Oracle)
    (hs : s + 4 < 4294967296) (hn : n + 4 < 4294967296) :
    (∀ q st' tr, heap_alloc st s o = (.ret (some q) st', tr) → heap_size st' q = s)
    ∧ (∀ q st' tr, heap_extend st2 pin n o2 = (.ret (some q) st', tr) → heap_size st' q = n) := by
  constructor
  · intro q st' tr h
    obtain ⟨hq, hmem⟩ := heap_alloc_ret_some _ _ _ _ _ _ h
    unfold heap_size
    rw [hmem, readWord_writeWord]
    omega
  · intro q st' tr h
    obtain ⟨hq, hmem⟩ := heap_extend_ret_some _ _ _ _ _ _ _ h
    unfold heap_size
    rw [hmem, readWord_writeWord]
    omega

theorem heap_header_matches_request_witness :
    heap_size { allocSt0 with
      mem := writeWord allocSt0.mem 96 ((12 + 4) % 4294967296 + 4294967292) } 100 = 12 ∧
    heap_size { allocSt0 with
      mem := writeWord allocSt0.mem 64 ((20 + 4) % 4294967296 + 4294967292) } 68 = 20 :=
  ⟨(heap_header_matches_request allocSt0 allocSt0 12 100 20
      { res1 := .ok 96, res2 := .ok 96, extendOk := true }
      { res1 := .ok 64, res2 := .ok 64, extendOk := true }
      (by norm_num) (by norm_num)).1 100
    { allocSt0 with mem := writeWord allocSt0.mem 96 ((12 + 4) % 4294967296 + 4294967292) }
    [.reserve (((12 + 4) % 4294967296 : Nat) : Int) (.ok 96)] rfl,
   (heap_header_matches_request allocSt0 allocSt0 12 100 20
      { res1 := .ok 96, res2 := .ok 96, extendOk := true }
      { res1 := .ok 64, res2 := .ok 64, extendOk := true }
      (by norm_num) (by norm_num)).2 68
    { allocSt0 with mem := writeWord allocSt0.mem 64 ((20 + 4) % 4294967296 + 4294967292) }
    [.reserve (heap_extend_change allocSt0 100 20) (.ok 64)] rfl⟩

/-- C4 (code bug): at this state the block at pointer 100 was allocated for
a 10-byte payload, so its header holds 10 and its current total size is
10 + 4 = 14.  Resizing it to a new payload of 20 should ask the inner
allocator for a change of (20 + 4) - 14 = 10 bytes, yet heap.c line 152
subtracts the stored payload size instead of the block's total and requests
14, leaving the block 4 bytes larger than the new total 20 + 4. -/
def extendSt : HeapState := { mem := writeWord (fun _ => 0) 96 10, heap_block_size := HEAP_GRANULARITY }

/-- C4: the size change heap_extend passes to xosheap_realloc is
new_size + 4 minus the stored payload size, not minus the block's current
total size: at the concrete state extendSt it requests 14 where the
specified request is 10. -/
theorem heap_extend_change_off_by_header :
    heap_extend_change extendSt 100 20 = 14 ∧
    asInt32 (readWord extendSt.mem (100 - 4)) + 4 = 14 ∧
    heap_extend_change extendSt 100 20 ≠
      ((20 : Int) + 4) - (asInt32 (readWord extendSt.mem (100 - 4)) + 4) := by
  refine ⟨by decide, by decide, by decide⟩

/-- C6: heap_free first hands the block back to the OS_Heap, then invokes
the trailing trim; when the trim reports a negative change (it released
-trimRes > 0 bytes) the tracker drops by exactly that amount and flex is
asked to shrink the arena to the lowered tracker; otherwise the state is
returned unchanged and flex is not called. -/
theorem heap_free_trim_protocol (st : HeapState) (p : Nat) (o : FreeOracle) :
    (0 < -o.trimRes →
      heap_free st p o =
        ({ st with heap_block_size := st.heap_block_size - (-o.trimRes) },
         [.osFree (p - 4), .trim o.trimRes,
          .flexExtendCall (st.heap_block_size - (-o.trimRes)) o.flexOk]))
    ∧ (¬ 0 < -o.trimRes →
      heap_free st p o = (st, [.osFree (p - 4), .trim o.trimRes])) := by
  constructor
  · intro hneg
    have h1 : o.trimRes < 0 := by omega
    have h2 : st.heap_block_size + o.trimRes = st.heap_block_size - (-o.trimRes) := by ring
    simp only [heap_free]
    rw [if_pos h1, h2]
  · intro hpos
    have h1 : ¬ o.trimRes < 0 := by omega
    simp only [heap_free]
    rw [if_neg h1]

theorem heap_free_trim_protocol_witness :
    (heap_free allocSt0 100 { trimRes := -64, flexOk := true } =
      ({ allocSt0 with heap_block_size := allocSt0.heap_block_size - (-(-64 : Int)) },
       [.osFree (100 - 4), .trim (-64),
        .flexExtendCall (allocSt0.heap_block_size - (-(-64 : Int))) true])) ∧
    (heap_free allocSt0 100 { trimRes := 0, flexOk := true } =
      (allocSt0, [.osFree (100 - 4), .trim 0])) :=
  ⟨(heap_free_trim_protocol allocSt0 100 { trimRes := -64, flexOk := true }).1 (by norm_num),
   (heap_free_trim_protocol allocSt0 100 { trimRes := 0, flexOk := true }).2 (by norm_num)⟩

/-- C9: despite the stray semicolon in heap_initialise, the fatal report is
raised (and the process terminated) exactly when xosheap_initialise returned
a non-NULL error, because error_report_program itself returns immediately on
a NULL error; on success no report is raised and heap_initialise returns
normally. -/
theorem heap_initialise_report_conditional (o : InitOracle) :
    (o.initError = none →
      error_report_program o.initError = some () ∧ heap_initialise o = some true)
    ∧ (∀ e, o.initError = some e →
      error_report_program o.initError = none ∧ heap_initialise o = none) := by
  constructor
  · intro h
    simp [heap_initialise, error_report_program, h]
  · intro e h
    simp [heap_initialise, error_report_program, h]

theorem heap_initialise_report_conditional_witness :
    (error_report_program ({ flexAllocOk := true, initError := none } : InitOracle).initError = some () ∧
     heap_initialise { flexAllocOk := true, initError := none } = some true) ∧
    (error_report_program ({ flexAllocOk := true, initError := some 3 } : InitOracle).initError = none ∧
     heap_initialise { flexAllocOk := true, initError := some 3 } = none) :=
  ⟨(heap_initialise_report_conditional { flexAllocOk := true, initError := none }).1 rfl,
   (heap_initialise_report_conditional { flexAllocOk := true, initError := some 3 }).2 3 rfl⟩

/-- C8 counterexample: when flex_alloc fails to obtain the initial block but
xosheap_initialise reports no error, heap_initialise still returns TRUE -
the success flag does not reflect whether the initial arena request
succeeded, because heap.c line 71 discards flex_alloc's result. -/
theorem heap_initialise_ignores_flex_cex :
    heap_initialise { flexAllocOk := false, initError := none } = some true ∧
    ({ flexAllocOk := false, initError := none } : InitOracle).flexAllocOk = false :=
  ⟨rfl, rfl⟩

/-- C8 (amended): heap_initialise returns TRUE unconditionally whenever it
returns; it fails to return (terminating through the fatal sink) exactly
when the embedded-allocator setup reported an error; and the outcome of the
initial flex request never affects the result. -/
theorem heap_initialise_returns_true (o : InitOracle) :
    (∀ b, heap_initialise o = some b → b = true)
    ∧ (heap_initialise o = none ↔ o.initError ≠ none)
    ∧ (∀ b, heap_initialise { flexAllocOk := b, initError := o.initError } = heap_initialise o) := by
  rcases o with ⟨fa, ie⟩
  cases ie with
  | none =>
    refine ⟨?_, ?_, ?_⟩
    · intro b h
      simp [heap_initialise, error_report_program] at h
      exact h
    · simp [heap_initialise, error_report_program]
    · intro b
      rfl
  | some e =>
    refine ⟨?_, ?_, ?_⟩
    · intro b h
      simp [heap_initialise, error_report_program] at h
    · simp [heap_initialise, error_report_program]
    · intro b
      rfl

theorem heap_initialise_returns_true_witness :
    (true : Bool) = true ∧
    (heap_initialise { flexAllocOk := true, initError := some 3 } = none ↔
      ({ flexAllocOk := true, initError := some 3 } : InitOracle).initError ≠ none) :=
  ⟨(heap_initialise_returns_true { flexAllocOk := true, initError := none }).1 true rfl,
   (heap_initialise_returns_true { flexAllocOk := true, initError := some 3 }).2.1⟩

theorem strncpy_outside (m : Mem) (dst src n a : Nat) (h : a < dst ∨ dst + n ≤ a) :
    strncpy m dst src n a = m a := by
  have hc : ¬ (dst ≤ a ∧ a < dst + n) := by omega
  simp only [strncpy]
  rw [if_neg hc]

theorem strncpy_copy (m : Mem) (dst src n i : Nat) (hi : i < n)
    (hnz : ∀ j, j < i → m (src + j) ≠ 0) :
    strncpy m dst src n (dst + i) = m (src + i) := by
  have hc : dst ≤ dst + i ∧ dst + i < dst + n := ⟨Nat.le_add_right _ _, by omega⟩
  have hall : (List.range i).all (fun j => m (src + j) != 0) = true := by
    simp only [List.all_eq_true, List.mem_range, bne_iff_ne]
    exact hnz
  simp only [strncpy]
  rw [if_pos hc, Nat.add_sub_cancel_left, if_pos hall]

theorem readWord_congr (m m' : Mem) (a : Nat)
    (h0 : m' a = m a) (h1 : m' (a + 1) = m (a + 1))
    (h2 : m' (a + 2) = m (a + 2)) (h3 : m' (a + 3) = m (a + 3)) :
    readWord m' a = readWord m a := by
  unfold readWord
  rw [h0, h1, h2, h3]

theorem heap_alloc_ret_none_mem (st : HeapState) (s : Nat) (o : Oracle)
    (st' : HeapState) (tr : List Event)
    (h : heap_alloc st s o = (.ret none st', tr)) :
    st'.mem = st.mem := by
  rcases o with ⟨r1, r2, ex⟩
  cases r1 with
  | ok b1 =>
    simp only [heap_alloc] at h
    injection h with hout htr
    unfold heap_finish at hout
    split at hout
    · injection hout with h1 h2
      rw [← h2]
    · injection hout with h1 h2
      simp at h1
  | error e1 =>
    cases ex with
    | false =>
      simp only [heap_alloc] at h
      injection h with hout htr
      injection hout with h1 h2
      rw [← h2]
    | true =>
      cases r2 with
      | ok b2 =>
        simp only [heap_alloc] at h
        injection h with hout htr
        unfold heap_finish at hout
        split at hout
        · injection hout with h1 h2
          rw [← h2]
        · injection hout with h1 h2
          simp at h1
      | error e2 => simp [heap_alloc] at h

/-- C7: heap_strdup either returns NULL with every byte of memory - in
particular the source string - untouched, or returns a pointer p distinct
from the source text whose recorded size is strlen(text) + 1 and whose
payload is byte-for-byte equal to the source, NUL terminator included.
The disjointness premise is the inner allocator's contract that a freshly
reserved block (its 4-byte header included) does not overlap live data;
without it the C code's strncpy would be undefined behaviour. -/
theorem heap_strdup_spec (st : HeapState) (text len : Nat) (o : Oracle)
    (hstr : isCString st.mem text len = true)
    (hlen : len + 5 < 4294967296) :
    (∀ st' tr, heap_strdup st text len o = (.ret none st', tr) →
      ∀ a, st'.mem a = st.mem a)
    ∧ (∀ p st' tr, heap_strdup st text len o = (.ret (some p) st', tr) →
      (∀ a, p - 4 ≤ a → a < p + (len + 1) → a < text ∨ text + len < a) →
      p ≠ text ∧ heap_size st' p = len + 1 ∧
      ∀ i, i ≤ len → st'.mem (p + i) = st.mem (text + i)) := by
  simp only [isCString, Bool.and_eq_true, beq_iff_eq, List.all_eq_true, List.mem_range,
    bne_iff_ne] at hstr
  obtain ⟨hterm, hnz⟩ := hstr
  constructor
  · intro st' tr h
    simp only [heap_strdup] at h
    cases hA : heap_alloc st (len + 1) o with
    | mk out tr0 =>
      rw [hA] at h
      cases out with
      | fatal e =>
        injection h with h1 h2
        injection h1
      | ret q0 stq =>
        cases q0 with
        | some q =>
          injection h with h1 h2
          injection h1 with h3 h4
          injection h3
        | none =>
          injection h with h1 h2
          injection h1 with h3 h4
          subst h4
          have hmem := heap_alloc_ret_none_mem _ _ _ _ _ hA
          intro a
          rw [hmem]
  · intro p st' tr h hdisj
    simp only [heap_strdup] at h
    cases hA : heap_alloc st (len + 1) o with
    | mk out tr0 =>
      rw [hA] at h
      cases out with
      | fatal e =>
        injection h with h1 h2
        injection h1
      | ret q0 stq =>
        cases q0 with
        | none =>
          injection h with h1 h2
          injection h1 with h3 h4
          injection h3
        | some q =>
          injection h with h1 h2
          injection h1 with h3 h4
          injection h3 with hq
          subst hq
          obtain ⟨hp4, hmem⟩ := heap_alloc_ret_some _ _ _ _ _ _ hA
          subst h4
          have hstq_text : ∀ j, j ≤ len → stq.mem (text + j) = st.mem (text + j) := by
            intro j hj
            rw [hmem]
            apply writeWord_outside
            by_cases hc : q - 4 ≤ text + j ∧ text + j < q + (len + 1)
            · rcases hdisj (text + j) hc.1 hc.2 with hlt | hgt <;> omega
            · omega
          refine ⟨?_, ?_, ?_⟩
          · rcases hdisj q (by omega) (by omega) with hlt | hgt <;> omega
          · show readWord (strncpy stq.mem q text (len + 1)) (q - 4) = len + 1
            have hcongr : readWord (strncpy stq.mem q text (len + 1)) (q - 4) =
                readWord stq.mem (q - 4) :=
              readWord_congr stq.mem _ (q - 4)
                (strncpy_outside _ _ _ _ _ (by omega))
                (strncpy_outside _ _ _ _ _ (by omega))
                (strncpy_outside _ _ _ _ _ (by omega))
                (strncpy_outside _ _ _ _ _ (by omega))
            rw [hcongr, hmem, readWord_writeWord]
            omega
          · intro i hi
            show strncpy stq.mem q text (len + 1) (q + i) = st.mem (text + i)
            have hnz' : ∀ j, j < i → stq.mem (text + j) ≠ 0 := by
              intro j hj
              rw [hstq_text j (by omega)]
              exact hnz j (by omega)
            rw [strncpy_copy stq.mem q text (len + 1) i (by omega) hnz']
            exact hstq_text i hi

def strdupMem : Mem := fun a => if a = 200 then 104 else if a = 201 then 105 else 0

def strdupSt : HeapState := { mem := strdupMem, heap_block_size := HEAP_GRANULARITY }

def strdupStOut : HeapState :=
  { mem := strncpy (writeWord strdupMem 96 ((2 + 1 + 4) % 4294967296 + 4294967292)) 100 200 (2 + 1),
    heap_block_size := HEAP_GRANULARITY }

theorem heap_strdup_spec_witness :
    (100 : Nat) ≠ 200 ∧ heap_size strdupStOut 100 = 2 + 1 ∧
    ∀ i, i ≤ 2 → strdupStOut.mem (100 + i) = strdupSt.mem (200 + i) :=
  (heap_strdup_spec strdupSt 200 2 { res1 := .ok 96, res2 := .ok 96, extendOk := true }
      (by decide) (by norm_num)).2 100 strdupStOut
    [.reserve (((2 + 1 + 4) % 4294967296 : Nat) : Int) (.ok 96)]
    rfl
    (by intro a h1 h2; omega)
